import Mathlib

/-!
Verification of the sat-image-server HTTP handlers.

This file shallowly embeds the two handlers with real engineering content,
namely getMissions (missions listing with the opaque continuation-cursor
codec) and getSatImageByID (image delivery, streaming versus transform
path), from the current source version of the repository.

Conventions of the embedding:
* Go maps are modelled as association lists whose entry order stands for
  one fixed iteration order; every operation of the embedded code touches
  entries independently, so this is faithful up to the (unspecified) Go
  map iteration order.
* Machine integers are modelled as Int with the explicit int32 and int64
  bounds of strconv.ParseInt, which clamps out-of-range results.
* float64 values are modelled exactly: a parsed finite value is an exact
  rational, and the special values NaN and the two infinities are separate
  constructors.  Rounding of in-range finite values is not modelled; it
  never changes whether a parsed value equals zero for inputs of
  reasonable magnitude, which is the only float observation the code makes.
* The collaborating libraries that are not part of the repository
  (encoding/json, encoding/base64, the disintegration/imaging library,
  the blob store and key-value store clients) are modelled as explicit
  parameters: pure oracles together with the round-trip laws their
  documentation guarantees where a claim needs them.
-/

/- == DynamoDB attribute values and resume keys (types.AttributeValue) == -/

/-- Model of types.AttributeValue restricted to what the cursor codec
distinguishes: the string member, the number member (whose value is a
numeric string), and every other member kind collapsed into one
constructor, since both the encoder and the decoder treat all of them
by the same silent fallthrough. -/
inductive AttributeValue where
  | S (value : String)
  | N (value : String)
  | otherMember
deriving DecidableEq, Repr

/-- true exactly for the two scalar member kinds the cursor codec names. -/
def AttributeValue.isScalar : AttributeValue → Bool
  | .S _ => true
  | .N _ => true
  | .otherMember => false

/-- map of string to types.AttributeValue, as an association list. -/
abbrev AttrMap := List (String × AttributeValue)

/-- map of string to map of string to string, the shape json.Unmarshal
fills for a pagination token (tempKey in the source). -/
abbrev TempKey := List (String × List (String × String))

/-- Insertion into an association-list map: overwrite the entry if the
key is present, append otherwise (Go map assignment). -/
def mapInsert (m : AttrMap) (k : String) (v : AttributeValue) : AttrMap :=
  match m with
  | [] => [(k, v)]
  | (k0, v0) :: rest => if k0 = k then (k, v) :: rest else (k0, v0) :: mapInsert rest k v

/- == strconv models == -/

def int64MaxVal : Int := 9223372036854775807
def int64MinVal : Int := -9223372036854775808
def int32MaxVal : Int := 2147483647
def int32MinVal : Int := -2147483648

/-- Numeric value of a list of decimal digit characters, if the list is
nonempty and all characters are decimal digits. -/
def decDigitsValue (cs : List Char) : Option Nat :=
  if cs = [] then none
  else if cs.all Char.isDigit then
    some (cs.foldl (fun a c => a * 10 + (c.toNat - 48)) 0)
  else none

/-- Signed decimal string to Int, if syntactically valid for
strconv.ParseInt with base 10 (optional single sign, then one or more
decimal digits, no underscores). -/
def goParseIntCore (s : String) : Option Int :=
  match s.data with
  | '+' :: rest => (decDigitsValue rest).map (fun n => (n : Int))
  | '-' :: rest => (decDigitsValue rest).map (fun n => -(n : Int))
  | cs => (decDigitsValue cs).map (fun n => (n : Int))

/-- strconv.ParseInt with base 10 and the given bounds: returns the pair
of the value and the error flag.  A syntax error yields value 0; an
out-of-range input yields the nearest bound; both set the error flag. -/
def goParseIntSized (lo hi : Int) (s : String) : Int × Bool :=
  match goParseIntCore s with
  | none => (0, true)
  | some v =>
    if v > hi then (hi, true)
    else if v < lo then (lo, true)
    else (v, false)

/-- strconv.Atoi (ParseInt with base 10, bitSize 0 = 64-bit int). -/
def goAtoi (s : String) : Int × Bool :=
  goParseIntSized int64MinVal int64MaxVal s

/-- strconv.ParseInt with base 10 and bitSize 32, as getMissions uses
for the count query parameter. -/
def goParseInt32Str (s : String) : Int × Bool :=
  goParseIntSized int32MinVal int32MaxVal s

/- == float64 model and strconv.ParseFloat == -/

/-- Exact model of a parsed float64: an exact rational for a finite
value, a signed infinity, or NaN. -/
inductive GoFloat where
  | finite (val : Rat)
  | infinite (positive : Bool)
  | nan
deriving DecidableEq, Repr

/-- The float64 comparison contrast == 0 of the source.  In IEEE
arithmetic both zeroes compare equal to zero while NaN and the
infinities do not. -/
def GoFloat.isZero : GoFloat → Bool
  | .finite q => q == 0
  | .infinite _ => false
  | .nan => false

/-- ASCII lower-casing of one character, as strconv.lower. -/
def lowerChar (c : Char) : Char :=
  if 'A' ≤ c ∧ c ≤ 'Z' then Char.ofNat (c.toNat + 32) else c

/-- The special values recognised by strconv.ParseFloat: "nan" without a
sign, "inf" or "infinity" with an optional sign, all case-insensitive
and consuming the whole string. -/
def parseFloatSpecial (cs : List Char) : Option GoFloat :=
  let ls := cs.map lowerChar
  if ls = ['n', 'a', 'n'] then some .nan
  else
    let (pos, rest) :=
      match ls with
      | '+' :: r => (true, r)
      | '-' :: r => (false, r)
      | r => (true, r)
    if rest = ['i', 'n', 'f'] ∨ rest = ['i', 'n', 'f', 'i', 'n', 'i', 't', 'y'] then
      some (.infinite pos)
    else none

/-- One step of strconv.underscoreOK: the state is the class of the last
character seen, as in the Go source: circumflex for the start of the
number, a digit (or base prefix) as '0', an underscore as itself, and
any other character as an exclamation mark. -/
def underscoreStep (hex : Bool) (st : Option Char) (c : Char) : Option Char :=
  match st with
  | none => none
  | some saw =>
    if ('0' ≤ c ∧ c ≤ '9') ∨ (hex ∧ 'a' ≤ lowerChar c ∧ lowerChar c ≤ 'f') then some '0'
    else if c = '_' then (if saw = '0' then some '_' else none)
    else if saw = '_' then none
    else some '!'

/-- strconv.underscoreOK: underscores must separate successive digits or
follow a base prefix. -/
def underscoreOK (cs : List Char) : Bool :=
  let cs1 := match cs with
    | '+' :: r => r
    | '-' :: r => r
    | r => r
  let (hex, st0, body) : Bool × Char × List Char := match cs1 with
    | '0' :: x :: r => if lowerChar x = 'x' then (true, '0', r) else (false, '^', cs1)
    | _ => (false, '^', cs1)
  match body.foldl (underscoreStep hex) (some st0) with
  | none => false
  | some saw => saw ≠ '_'

/-- Numeric value of a list of hexadecimal digit characters, if the list
is nonempty and all characters are hexadecimal digits. -/
def hexDigitsValue (cs : List Char) : Option Nat :=
  if cs = [] then none
  else if cs.all (fun c => ('0' ≤ c ∧ c ≤ '9') ∨ ('a' ≤ lowerChar c ∧ lowerChar c ≤ 'f')) then
    some (cs.foldl (fun a c =>
      a * 16 + (if '0' ≤ c ∧ c ≤ '9' then c.toNat - 48 else (lowerChar c).toNat - 87)) 0)
  else none

/-- Signed decimal exponent following the exponent marker. -/
def parseExponentDigits (cs : List Char) : Option Int :=
  match cs with
  | '+' :: r => (decDigitsValue r).map (fun n => (n : Int))
  | '-' :: r => (decDigitsValue r).map (fun n => -(n : Int))
  | r => (decDigitsValue r).map (fun n => (n : Int))

/-- The exact rational mantissa times expBase to the power ex divided by
fracBase to the power fracLen, built with a single Rat.divInt so that it
evaluates by kernel reduction. -/
def scaledRatValue (mant : Nat) (fracBase : Nat) (fracLen : Nat) (expBase : Nat) (ex : Int) : Rat :=
  if ex ≥ 0 then
    Rat.divInt (mant * expBase ^ ex.toNat) (fracBase ^ fracLen)
  else
    Rat.divInt mant (fracBase ^ fracLen * expBase ^ (-ex).toNat)

/-- Mantissa and optional exponent of a decimal float body (sign and
underscores already removed): digits, an optional dot with further
digits, then an optional exponent part introduced by e or E. -/
def parseDecimalBody (cs : List Char) : Option Rat :=
  let intPart := cs.takeWhile Char.isDigit
  let rest1 := cs.dropWhile Char.isDigit
  let (fracPart, rest2) : List Char × List Char :=
    match rest1 with
    | '.' :: r => (r.takeWhile Char.isDigit, r.dropWhile Char.isDigit)
    | r => ([], r)
  if intPart ++ fracPart = [] then none
  else
    let mant : Nat := (intPart ++ fracPart).foldl (fun a c => a * 10 + (c.toNat - 48)) 0
    match rest2 with
    | [] => some (scaledRatValue mant 10 fracPart.length 10 0)
    | e :: r =>
      if e = 'e' ∨ e = 'E' then
        (parseExponentDigits r).map (fun ex => scaledRatValue mant 10 fracPart.length 10 ex)
      else none

/-- Mantissa and mandatory binary exponent of a hexadecimal float body
(the part after the 0x marker, underscores already removed). -/
def parseHexBody (cs : List Char) : Option Rat :=
  let isHexDigit := fun c => ('0' ≤ c ∧ c ≤ '9') ∨ ('a' ≤ lowerChar c ∧ lowerChar c ≤ 'f')
  let intPart := cs.takeWhile isHexDigit
  let rest1 := cs.dropWhile isHexDigit
  let (fracPart, rest2) : List Char × List Char :=
    match rest1 with
    | '.' :: r => (r.takeWhile isHexDigit, r.dropWhile isHexDigit)
    | r => ([], r)
  if intPart ++ fracPart = [] then none
  else
    match hexDigitsValue (intPart ++ fracPart) with
    | none => none
    | some m =>
      match rest2 with
      | p :: r =>
        if p = 'p' ∨ p = 'P' then
          (parseExponentDigits r).map (fun ex => scaledRatValue m 16 fracPart.length 2 ex)
        else none
      | [] => none

/-- strconv.ParseFloat with bitSize 64, modelled exactly over the
rationals: returns the value together with the error flag, and a syntax
error yields the zero value exactly as the Go function does.  Special
values, the optional sign, the hexadecimal form with its mandatory
binary exponent, and the underscore placement rule are all modelled;
rounding of in-range finite values is not. -/
def goParseFloat64 (s : String) : GoFloat × Bool :=
  let cs := s.data
  match parseFloatSpecial cs with
  | some g => (g, false)
  | none =>
    if ¬ underscoreOK cs then (.finite 0, true)
    else
      let cs1 := cs.filter (fun c => c ≠ '_')
      let (neg, cs2) : Bool × List Char :=
        match cs1 with
        | '+' :: r => (false, r)
        | '-' :: r => (true, r)
        | r => (false, r)
      let body : Option Rat :=
        match cs2 with
        | '0' :: x :: r => if lowerChar x = 'x' then parseHexBody r else parseDecimalBody cs2
        | _ => parseDecimalBody cs2
      match body with
      | none => (.finite 0, true)
      | some q => (.finite (if neg then q.neg else q), false)

/- == Cursor codec (getMissions, src/unnamed/part_000) == -/

/-- Model of encoding/json restricted to the one value shape the cursor
codec exchanges, map of string to map of string to string.  The byte
type is abstract; the round-trip law of the library is assumed by the
theorems that need it and discharged with a concrete instance. -/
structure JsonCodec (β : Type) where
  marshal : TempKey → β
  unmarshal : β → Option TempKey

/-- json.Unmarshal inverts json.Marshal on this value shape. -/
def JsonCodec.RoundTrips {β : Type} (J : JsonCodec β) : Prop :=
  ∀ m, J.unmarshal (J.marshal m) = some m

/-- Model of encoding/base64 StdEncoding over an abstract byte type. -/
structure Base64Codec (β : Type) where
  encodeToString : β → String
  decodeString : String → Option β

/-- base64.StdEncoding.DecodeString inverts EncodeToString. -/
def Base64Codec.RoundTrips {β : Type} (B : Base64Codec β) : Prop :=
  ∀ b, B.decodeString (B.encodeToString b) = some b

/-- Lines 175-183 of the source: build the serializable key from
LastEvaluatedKey.  The type switch names only the S and the N member;
every other member kind falls through silently and its attribute is
dropped from the serialized map. -/
def serializeLastEvaluatedKey : AttrMap → TempKey
  | [] => []
  | (key, .S v) :: rest => (key, [("S", v)]) :: serializeLastEvaluatedKey rest
  | (key, .N v) :: rest => (key, [("N", v)]) :: serializeLastEvaluatedKey rest
  | (_, .otherMember) :: rest => serializeLastEvaluatedKey rest

/-- The inner loop of lines 144-153: walk one decoded value map and
assign the recognised members into the accumulator.  The switch has no
default case, so a tag other than S or N leaves the accumulator
unchanged. -/
def applyTaggedValues (acc : AttrMap) (key : String) : List (String × String) → AttrMap
  | [] => acc
  | (tag, v) :: rest =>
    applyTaggedValues
      (if tag = "S" then mapInsert acc key (.S v)
       else if tag = "N" then mapInsert acc key (.N v)
       else acc) key rest

/-- The outer loop of lines 143-153 over the accumulator. -/
def reconstructKeyFrom (acc : AttrMap) : TempKey → AttrMap
  | [] => acc
  | (key, valMap) :: rest => reconstructKeyFrom (applyTaggedValues acc key valMap) rest

/-- Lines 143-153: the exclusiveStartKey reconstructed from a decoded
pagination token. -/
def reconstructKey (t : TempKey) : AttrMap :=
  reconstructKeyFrom [] t

/-- Lines 175-193: the nextToken produced from a nonempty
LastEvaluatedKey, marshalled and then base64 encoded. -/
def encodeNextToken {β : Type} (J : JsonCodec β) (B : Base64Codec β) (k : AttrMap) : String :=
  B.encodeToString (J.marshal (serializeLastEvaluatedKey k))

/-- The two distinct token decode failures of lines 131-141. -/
inductive TokenDecodeFailure where
  | invalidToken
  | invalidTokenFormat
deriving DecidableEq, Repr

/-- Lines 131-153: base64 decode, unmarshal, then reconstruct the typed
resume key. -/
def decodeNextToken {β : Type} (J : JsonCodec β) (B : Base64Codec β) (token : String) :
    Except TokenDecodeFailure AttrMap :=
  match B.decodeString token with
  | none => .error .invalidToken
  | some decoded =>
    match J.unmarshal decoded with
    | none => .error .invalidTokenFormat
    | some tempKey => .ok (reconstructKey tempKey)

/- == getMissions handler (lines 102-202) == -/

/-- The dynamodb.ScanInput the handler builds: table name, limit and
optional exclusive start key. -/
structure MissionsScanInput where
  tableName : String
  limit : Int
  exclusiveStartKey : Option AttrMap
deriving DecidableEq, Repr

/-- Outcome of the DynamoDB Scan call: an error, or items (kept
abstract, the claims never inspect mission contents) together with the
LastEvaluatedKey, where the empty map stands for no further page. -/
inductive ScanOutcome (ι : Type) where
  | failure
  | success (items : ι) (lastEvaluatedKey : AttrMap)

/-- Observable response of getMissions: a JSON error object with its
HTTP status, or the 200 page with the optional nextToken. -/
inductive MissionsResult (μ : Type) where
  | jsonError (status : Nat) (message : String)
  | page (missions : μ) (nextToken : Option String)
deriving DecidableEq

/-- Lines 158-201: run the scan, unmarshal the items, and build the
nextToken exactly when LastEvaluatedKey is nonempty. -/
def getMissionsScanPhase {β ι μ : Type} (J : JsonCodec β) (B : Base64Codec β)
    (input : MissionsScanInput) (scan : MissionsScanInput → ScanOutcome ι)
    (unmarshalMissions : ι → Option μ) : MissionsResult μ × Option MissionsScanInput :=
  match scan input with
  | .failure => (.jsonError 500 "Failed to retrieve missions", some input)
  | .success items lastEvaluatedKey =>
    match unmarshalMissions items with
    | none => (.jsonError 500 "Failed to process mission data", some input)
    | some missions =>
      if lastEvaluatedKey.length > 0 then
        (.page missions (some (encodeNextToken J B lastEvaluatedKey)), some input)
      else
        (.page missions none, some input)

/-- Lines 102-202: the getMissions handler.  Inputs are the query
parameters (the empty string stands for an absent parameter, as
c.Query returns), the table name from the environment, and the two
collaborator oracles.  The second component of the result is the scan
input actually sent, or none when the handler returned before calling
the store.  The json.Marshal error branch of lines 186-190 is
unreachable in the model because marshalling this shape is total. -/
def getMissions {β ι μ : Type} (J : JsonCodec β) (B : Base64Codec β)
    (tableName countStr token : String) (scan : MissionsScanInput → ScanOutcome ι)
    (unmarshalMissions : ι → Option μ) : MissionsResult μ × Option MissionsScanInput :=
  if countStr ≠ "" ∧ ((goParseInt32Str countStr).2 = true ∨ (goParseInt32Str countStr).1 ≤ 0) then
    (.jsonError 400 "Invalid count parameter. Must be a positive integer.", none)
  else
    let limit : Int := if countStr = "" then 10 else min (goParseInt32Str countStr).1 100
    if token = "" then
      getMissionsScanPhase J B ⟨tableName, limit, none⟩ scan unmarshalMissions
    else
      match decodeNextToken J B token with
      | .error .invalidToken => (.jsonError 400 "Invalid pagination token", none)
      | .error .invalidTokenFormat => (.jsonError 400 "Invalid pagination token format", none)
      | .ok exclusiveStartKey =>
        getMissionsScanPhase J B ⟨tableName, limit, some exclusiveStartKey⟩ scan unmarshalMissions

/- == getSatImageByID handler (lines 236-332) == -/

/-- The s3.GetObjectInput the handler builds: bucket, key and the
optional byte range. -/
structure GetObjectInput where
  bucket : String
  key : String
  range : Option String
deriving DecidableEq, Repr

/-- The s3.GetObjectOutput fields the handler reads.  The body byte type
and the last-modified time type are abstract. -/
structure GetObjectOutput (Bytes τ : Type) where
  body : Bytes
  contentType : Option String
  contentLength : Option Int
  eTag : Option String
  lastModified : Option τ
  cacheControl : Option String
  contentRange : Option String

/-- Result of imaging.Encode writing into the response: either the full
encoded buffer, or the bytes written before a mid-stream failure (which
the source only logs). -/
inductive EncodeOutcome (Bytes : Type) where
  | success (encoded : Bytes)
  | failure (writtenBeforeFailure : Bytes)
deriving DecidableEq

/-- Model of the disintegration/imaging calls the handler makes.  Image
and byte types are abstract; the transform functions are pure. -/
structure ImagingLib (Bytes Img : Type) where
  decode : Bytes → Option Img
  resize : Img → Int → Int → Img
  adjustContrast : Img → GoFloat → Img
  encodeJPEG95 : Img → EncodeOutcome Bytes

/-- Events the handler emits on the gin response writer, in order:
c.JSON with status and a one-field gin.H object, c.Header, c.Status,
and a body write. -/
inductive RespEvent (Bytes : Type) where
  | jsonBody (status : Nat) (field value : String)
  | setHeader (name value : String)
  | setStatus (code : Nat)
  | writeBody (b : Bytes)
deriving DecidableEq

/-- Committed status of a response trace: the first explicit status (a
c.JSON call or c.Status call); gin commits 200 when the body is written
with no status set. -/
def respStatus {Bytes : Type} : List (RespEvent Bytes) → Nat
  | [] => 200
  | .jsonBody st _ _ :: _ => st
  | .setStatus st :: _ => st
  | _ :: tr => respStatus tr

/-- First value set for the named response header in a trace. -/
def headerValue {Bytes : Type} : List (RespEvent Bytes) → String → Option String
  | [], _ => none
  | .setHeader n v :: tr, name => if n = name then some v else headerValue tr name
  | _ :: tr, name => headerValue tr name

/-- Lines 246-254: the three transform query parameters, parsed with the
errors discarded. -/
def parsedTransformParams (widthStr heightStr contrastStr : String) : Int × Int × GoFloat :=
  ((goAtoi widthStr).1, (goAtoi heightStr).1, (goParseFloat64 contrastStr).1)

/-- Line 254: needsProcessing is width greater than zero, or height
greater than zero, or contrast not equal to zero. -/
def needsProcessing (width height : Int) (contrast : GoFloat) : Bool :=
  decide (width > 0) || decide (height > 0) || !contrast.isZero

/-- Lines 244-265: the GetObjectInput for an image request.  The range
header is forwarded only on the no-processing path and only when it is
nonempty. -/
def imageObjectInput (bucketName id widthStr heightStr contrastStr rangeHeader : String) :
    GetObjectInput :=
  let p := parsedTransformParams widthStr heightStr contrastStr
  { bucket := bucketName
    key := "images/" ++ id ++ ".jpg"
    range :=
      if needsProcessing p.1 p.2.1 p.2.2 then none
      else if rangeHeader = "" then none
      else some rangeHeader }

/-- Lines 283-291: resize when width or height is positive, then adjust
contrast when contrast is nonzero. -/
def transformPipeline {Bytes Img : Type} (L : ImagingLib Bytes Img)
    (width height : Int) (contrast : GoFloat) (srcImage : Img) : Img :=
  let processedImage := if width > 0 ∨ height > 0 then L.resize srcImage width height else srcImage
  if ¬ contrast.isZero then L.adjustContrast processedImage contrast else processedImage

/-- Lines 301-330: the streaming branch.  Metadata headers are mirrored
when present, cache-control defaults to private, max-age=60, the
Accept-Ranges header is always set, and the status is 206 with a
Content-Range header exactly when the store returned a content range. -/
def streamEvents {Bytes τ : Type} (formatHTTPTime : τ → String)
    (out : GetObjectOutput Bytes τ) : List (RespEvent Bytes) :=
  (match out.contentType with
   | some ct => [RespEvent.setHeader "Content-Type" ct]
   | none => []) ++
  (match out.contentLength with
   | some n => [RespEvent.setHeader "Content-Length" (toString n)]
   | none => []) ++
  (match out.eTag with
   | some tag => [RespEvent.setHeader "ETag" tag]
   | none => []) ++
  (match out.lastModified with
   | some t => [RespEvent.setHeader "Last-Modified" (formatHTTPTime t)]
   | none => []) ++
  (match out.cacheControl with
   | some cc => [RespEvent.setHeader "Cache-Control" cc]
   | none => [RespEvent.setHeader "Cache-Control" "private, max-age=60"]) ++
  [RespEvent.setHeader "Accept-Ranges" "bytes"] ++
  (match out.contentRange with
   | some cr => [RespEvent.setHeader "Content-Range" cr, RespEvent.setStatus 206]
   | none => [RespEvent.setStatus 200]) ++
  [RespEvent.writeBody out.body]

/-- Lines 275-299: the transform branch after a successful fetch.  On a
decode failure the handler answers 500 with the failed-to-process
error object.  Otherwise it sets the content type and cache control
headers and then streams the JPEG encoder output (quality 95) straight
into the response writer; an encode failure is logged, never surfaced,
so the trace carries whatever bytes were written. -/
def transformEvents {Bytes Img : Type} (L : ImagingLib Bytes Img)
    (width height : Int) (contrast : GoFloat) (body : Bytes) : List (RespEvent Bytes) :=
  match L.decode body with
  | none => [RespEvent.jsonBody 500 "error" "failed to process image"]
  | some srcImage =>
    [RespEvent.setHeader "Content-Type" "image/jpeg",
     RespEvent.setHeader "Cache-Control" "private, max-age=3600",
     RespEvent.writeBody
       (match L.encodeJPEG95 (transformPipeline L width height contrast srcImage) with
        | .success encoded => encoded
        | .failure written => written)]

/-- Lines 236-332: the getSatImageByID handler.  Inputs are the path id,
the three transform query parameters and the Range header (the empty
string stands for an absent header), the bucket name from the
environment, the imaging library, the formatter for the Last-Modified
time, and the store oracle.  The second component of the result is the
GetObjectInput actually sent, or none when the handler returned before
calling the store. -/
def getSatImageByID {Bytes Img τ ε : Type} (L : ImagingLib Bytes Img)
    (formatHTTPTime : τ → String) (bucketName id widthStr heightStr contrastStr rangeHeader : String)
    (getObject : GetObjectInput → Except ε (GetObjectOutput Bytes τ)) :
    List (RespEvent Bytes) × Option GetObjectInput :=
  if id = "" then ([.jsonBody 400 "error" "missing id"], none)
  else
    let p := parsedTransformParams widthStr heightStr contrastStr
    let inReq := imageObjectInput bucketName id widthStr heightStr contrastStr rangeHeader
    match getObject inReq with
    | .error _ => ([.jsonBody 404 "error" "object not found"], some inReq)
    | .ok out =>
      if needsProcessing p.1 p.2.1 p.2.2 then
        (transformEvents L p.1 p.2.1 p.2.2 out.body, some inReq)
      else
        (streamEvents formatHTTPTime out, some inReq)

/- == Concrete collaborator instances used to discharge the abstract
library hypotheses on concrete inputs == -/

/-- A concrete injective serialization of one character: every character
is written escaped, so the control characters of the token grammar never
appear bare inside a string. -/
def escTokChar (c : Char) : List Char := ['\\', c]

/-- A string serialized for the concrete token codec: escaped characters
followed by the string terminator. -/
def encTokStr (s : String) : List Char := (s.data.map escTokChar).flatten ++ [';']

/-- One inner map entry: an entry marker, then the two strings. -/
def encTokPair (p : String × String) : List Char := '*' :: (encTokStr p.1 ++ encTokStr p.2)

/-- One outer map entry: an entry marker, the key, the inner entries and
the list terminator. -/
def encTokEntry (e : String × List (String × String)) : List Char :=
  '*' :: (encTokStr e.1 ++ ((e.2.map encTokPair).flatten ++ ['.']))

/-- A concrete total serialization of the TempKey shape into characters:
marked entries followed by the final list terminator.  It plays the part
of json.Marshal for the witnesses. -/
def tkMarshal (t : TempKey) : List Char := (t.map encTokEntry).flatten ++ ['.']

/-- Parser states of the concrete token codec: at the outer list, inside
a key string, at an inner list, or inside the first or second string of
an inner entry. -/
inductive TkMode where
  | outer
  | keyStr (acc : List Char)
  | innerList (key : String)
  | firstStr (key : String) (acc : List Char)
  | secondStr (key : String) (a : String) (acc : List Char)

/-- One-pass parser for the concrete token codec, structurally recursive
on the input characters; the two accumulators hold the completed outer
entries and the completed inner entries of the open outer entry, both in
reverse order. -/
def tkRun : List Char → TkMode → TempKey → List (String × String) → Option TempKey
  | '.' :: rest, .outer, oAcc, _ => if rest = [] then some oAcc.reverse else none
  | '*' :: rest, .outer, oAcc, iAcc => tkRun rest (.keyStr []) oAcc iAcc
  | '\\' :: c :: rest, .keyStr acc, oAcc, iAcc => tkRun rest (.keyStr (c :: acc)) oAcc iAcc
  | ';' :: rest, .keyStr acc, oAcc, _ => tkRun rest (.innerList (String.mk acc.reverse)) oAcc []
  | '.' :: rest, .innerList key, oAcc, iAcc => tkRun rest .outer ((key, iAcc.reverse) :: oAcc) []
  | '*' :: rest, .innerList key, oAcc, iAcc => tkRun rest (.firstStr key []) oAcc iAcc
  | '\\' :: c :: rest, .firstStr key acc, oAcc, iAcc => tkRun rest (.firstStr key (c :: acc)) oAcc iAcc
  | ';' :: rest, .firstStr key acc, oAcc, iAcc =>
    tkRun rest (.secondStr key (String.mk acc.reverse) []) oAcc iAcc
  | '\\' :: c :: rest, .secondStr key a acc, oAcc, iAcc =>
    tkRun rest (.secondStr key a (c :: acc)) oAcc iAcc
  | ';' :: rest, .secondStr key a acc, oAcc, iAcc =>
    tkRun rest (.innerList key) oAcc ((a, String.mk acc.reverse) :: iAcc)
  | _, _, _, _ => none

/-- The concrete deserialization inverting tkMarshal; it plays the part
of json.Unmarshal for the witnesses. -/
def tkUnmarshal (cs : List Char) : Option TempKey := tkRun cs .outer [] []

/-- The concrete JsonCodec instance over character lists. -/
def charJson : JsonCodec (List Char) := { marshal := tkMarshal, unmarshal := tkUnmarshal }

/-- A concrete Base64Codec instance over character lists: packing a
character list into a string is injective with a total inverse. -/
def charBase64 : Base64Codec (List Char) :=
  { encodeToString := fun cs => String.mk cs
    decodeString := fun s => some s.data }

/-- A scan oracle that always succeeds with no items and an empty
LastEvaluatedKey. -/
def unitScanEmpty : MissionsScanInput → ScanOutcome Unit := fun _ => .success () []

/-- An items unmarshaller that always succeeds. -/
def unitUnmarshalMissions : Unit → Option Nat := fun _ => some 0

/-- A concrete imaging library over natural numbers whose encoder
succeeds. -/
def natImaging : ImagingLib Nat Nat :=
  { decode := fun b => some (b + 1)
    resize := fun i w h => i + w.natAbs + h.natAbs
    adjustContrast := fun i _ => i + 7
    encodeJPEG95 := fun i => .success (i * 2) }

/-- The same concrete imaging library with an encoder that fails after
writing nothing. -/
def natImagingEncodeFails : ImagingLib Nat Nat :=
  { natImaging with encodeJPEG95 := fun _ => .failure 0 }

/-- A concrete Last-Modified formatter. -/
def unitTimeFormat : Unit → String := fun _ => "Thu, 01 Jan 1970 00:00:00 GMT"

/-- A store oracle that always returns a bare object with body 5. -/
def okStore : GetObjectInput → Except Unit (GetObjectOutput Nat Unit) :=
  fun _ => .ok { body := 5, contentType := none, contentLength := none, eTag := none,
                 lastModified := none, cacheControl := none, contentRange := none }

/-- A store oracle that always fails. -/
def errStore : GetObjectInput → Except Unit (GetObjectOutput Nat Unit) := fun _ => .error ()

/-- A store oracle that always returns an object carrying metadata,
including a content range. -/
def fullStore : GetObjectInput → Except Unit (GetObjectOutput Nat Unit) :=
  fun _ => .ok { body := 9, contentType := some "image/jpeg", contentLength := some 100,
                 eTag := some "abc123", lastModified := some (), cacheControl := none,
                 contentRange := some "bytes 0-99/200" }


/- == Helper lemmas == -/

theorem stringMkData (s : String) : String.mk s.data = s := rfl

theorem tkRun_keyStr (s tail acc : List Char) (oAcc : TempKey) (iAcc : List (String × String)) :
    tkRun ((s.map escTokChar).flatten ++ ';' :: tail) (.keyStr acc) oAcc iAcc
      = tkRun tail (.innerList (String.mk (acc.reverse ++ s))) oAcc [] := by
  induction s generalizing acc iAcc with
  | nil => simp [tkRun]
  | cons c s ih => simp [escTokChar, tkRun, ih, List.append_assoc]

theorem tkRun_firstStr (s tail acc : List Char) (key : String) (oAcc : TempKey)
    (iAcc : List (String × String)) :
    tkRun ((s.map escTokChar).flatten ++ ';' :: tail) (.firstStr key acc) oAcc iAcc
      = tkRun tail (.secondStr key (String.mk (acc.reverse ++ s)) []) oAcc iAcc := by
  induction s generalizing acc with
  | nil => simp [tkRun]
  | cons c s ih => simp [escTokChar, tkRun, ih, List.append_assoc]

theorem tkRun_secondStr (s tail acc : List Char) (key a : String) (oAcc : TempKey)
    (iAcc : List (String × String)) :
    tkRun ((s.map escTokChar).flatten ++ ';' :: tail) (.secondStr key a acc) oAcc iAcc
      = tkRun tail (.innerList key) oAcc ((a, String.mk (acc.reverse ++ s)) :: iAcc) := by
  induction s generalizing acc with
  | nil => simp [tkRun]
  | cons c s ih => simp [escTokChar, tkRun, ih, List.append_assoc]

theorem tkRun_inner (l : List (String × String)) (tail : List Char) (key : String)
    (oAcc : TempKey) (iAcc : List (String × String)) :
    tkRun ((l.map encTokPair).flatten ++ '.' :: tail) (.innerList key) oAcc iAcc
      = tkRun tail .outer ((key, iAcc.reverse ++ l) :: oAcc) [] := by
  induction l generalizing iAcc with
  | nil => simp [tkRun]
  | cons p l ih =>
    obtain ⟨a, b⟩ := p
    have step1 : ∀ rest, tkRun ('*' :: rest) (.innerList key) oAcc iAcc
        = tkRun rest (.firstStr key []) oAcc iAcc := fun _ => rfl
    simp only [List.map_cons, List.flatten_cons, encTokPair, encTokStr, List.cons_append,
      List.append_assoc, List.singleton_append]
    rw [step1, tkRun_firstStr]
    simp only [List.reverse_nil, List.nil_append, stringMkData]
    rw [tkRun_secondStr]
    simp only [List.reverse_nil, List.nil_append, stringMkData]
    rw [ih]
    simp

theorem tkRun_outer (t : TempKey) (oAcc : TempKey) :
    tkRun ((t.map encTokEntry).flatten ++ ['.']) .outer oAcc [] = some (oAcc.reverse ++ t) := by
  induction t generalizing oAcc with
  | nil => simp [tkRun]
  | cons e t ih =>
    obtain ⟨key, inner⟩ := e
    have step1 : ∀ rest iAcc, tkRun ('*' :: rest) .outer oAcc iAcc
        = tkRun rest (.keyStr []) oAcc iAcc := fun _ _ => rfl
    simp only [List.map_cons, List.flatten_cons, encTokEntry, encTokStr, List.cons_append,
      List.append_assoc, List.singleton_append]
    rw [step1, tkRun_keyStr]
    simp only [List.reverse_nil, List.nil_append, stringMkData]
    rw [tkRun_inner, ih]
    simp

theorem tkUnmarshal_tkMarshal (t : TempKey) : tkUnmarshal (tkMarshal t) = some t := by
  have h := tkRun_outer t []
  simpa [tkUnmarshal, tkMarshal] using h

theorem charJson_roundTrips : charJson.RoundTrips := by
  intro m
  simp [charJson, JsonCodec.RoundTrips, tkUnmarshal_tkMarshal]

theorem charBase64_roundTrips : charBase64.RoundTrips := by
  intro b
  rfl

theorem mapInsert_notMem (acc : AttrMap) (k : String) (v : AttributeValue)
    (h : k ∉ acc.map Prod.fst) : mapInsert acc k v = acc ++ [(k, v)] := by
  induction acc with
  | nil => rfl
  | cons e rest ih =>
    obtain ⟨k0, v0⟩ := e
    have h1 : ¬ (k0 = k) := fun he => h (by simp [he])
    have h2 : k ∉ rest.map Prod.fst := fun hm => h (by simp [hm])
    simp [mapInsert, h1, ih h2]

theorem reconstructKeyFrom_serialize (k : AttrMap) :
    ∀ acc : AttrMap, (∀ x ∈ k.map Prod.fst, x ∉ acc.map Prod.fst) →
    (k.map Prod.fst).Nodup → (∀ e ∈ k, e.2.isScalar = true) →
    reconstructKeyFrom acc (serializeLastEvaluatedKey k) = acc ++ k := by
  induction k with
  | nil =>
    intro acc _ _ _
    simp [serializeLastEvaluatedKey, reconstructKeyFrom]
  | cons e rest ih =>
    intro acc hdisj hnd hsc
    obtain ⟨key, v⟩ := e
    have hkey : key ∉ acc.map Prod.fst := hdisj key (by simp)
    have hndk : key ∉ rest.map Prod.fst := by
      simp only [List.map_cons, List.nodup_cons] at hnd
      exact hnd.1
    have hndr : (rest.map Prod.fst).Nodup := by
      simp only [List.map_cons, List.nodup_cons] at hnd
      exact hnd.2
    have hscr : ∀ x ∈ rest, x.2.isScalar = true := fun x hx => hsc x (List.mem_cons_of_mem _ hx)
    have hdisj2 : ∀ x ∈ rest.map Prod.fst, x ∉ (acc ++ [(key, v)]).map Prod.fst := by
      intro x hx
      simp only [List.map_append, List.mem_append, List.map_cons, List.mem_cons]
      rintro (hxa | hxk)
      · exact hdisj x (by simp [hx]) hxa
      · simp at hxk
        exact hndk (hxk ▸ hx)
    cases v with
    | S s =>
      simp only [serializeLastEvaluatedKey, reconstructKeyFrom]
      have happ : applyTaggedValues acc key [("S", s)] = mapInsert acc key (.S s) := by
        simp [applyTaggedValues]
      rw [happ, mapInsert_notMem _ _ _ hkey]
      exact (ih _ hdisj2 hndr hscr).trans (by simp)
    | N s =>
      simp only [serializeLastEvaluatedKey, reconstructKeyFrom]
      have happ : applyTaggedValues acc key [("N", s)] = mapInsert acc key (.N s) := by
        simp [applyTaggedValues]
      rw [happ, mapInsert_notMem _ _ _ hkey]
      exact (ih _ hdisj2 hndr hscr).trans (by simp)
    | otherMember =>
      have := hsc (key, .otherMember) (by simp)
      simp [AttributeValue.isScalar] at this

theorem reconstruct_serialize (k : AttrMap) (hnd : (k.map Prod.fst).Nodup)
    (hsc : ∀ e ∈ k, e.2.isScalar = true) :
    reconstructKey (serializeLastEvaluatedKey k) = k := by
  have h := reconstructKeyFrom_serialize k [] (by simp) hnd hsc
  simpa [reconstructKey] using h

theorem streamEvents_contentType {Bytes τ : Type} (fmt : τ → String) (out : GetObjectOutput Bytes τ) :
    headerValue (streamEvents fmt out) "Content-Type" = out.contentType := by
  obtain ⟨body, ct, cl, et, lm, cc, cr⟩ := out
  cases ct <;> cases cl <;> cases et <;> cases lm <;> cases cc <;> cases cr <;>
    simp [streamEvents, headerValue]

theorem streamEvents_contentLength {Bytes τ : Type} (fmt : τ → String) (out : GetObjectOutput Bytes τ) :
    headerValue (streamEvents fmt out) "Content-Length" = out.contentLength.map toString := by
  obtain ⟨body, ct, cl, et, lm, cc, cr⟩ := out
  cases ct <;> cases cl <;> cases et <;> cases lm <;> cases cc <;> cases cr <;>
    simp [streamEvents, headerValue]

theorem streamEvents_eTag {Bytes τ : Type} (fmt : τ → String) (out : GetObjectOutput Bytes τ) :
    headerValue (streamEvents fmt out) "ETag" = out.eTag := by
  obtain ⟨body, ct, cl, et, lm, cc, cr⟩ := out
  cases ct <;> cases cl <;> cases et <;> cases lm <;> cases cc <;> cases cr <;>
    simp [streamEvents, headerValue]

theorem streamEvents_lastModified {Bytes τ : Type} (fmt : τ → String) (out : GetObjectOutput Bytes τ) :
    headerValue (streamEvents fmt out) "Last-Modified" = out.lastModified.map fmt := by
  obtain ⟨body, ct, cl, et, lm, cc, cr⟩ := out
  cases ct <;> cases cl <;> cases et <;> cases lm <;> cases cc <;> cases cr <;>
    simp [streamEvents, headerValue]

theorem streamEvents_cacheControl {Bytes τ : Type} (fmt : τ → String) (out : GetObjectOutput Bytes τ) :
    headerValue (streamEvents fmt out) "Cache-Control"
      = some (out.cacheControl.getD "private, max-age=60") := by
  obtain ⟨body, ct, cl, et, lm, cc, cr⟩ := out
  cases ct <;> cases cl <;> cases et <;> cases lm <;> cases cc <;> cases cr <;>
    simp [streamEvents, headerValue]

theorem streamEvents_acceptRanges {Bytes τ : Type} (fmt : τ → String) (out : GetObjectOutput Bytes τ) :
    headerValue (streamEvents fmt out) "Accept-Ranges" = some "bytes" := by
  obtain ⟨body, ct, cl, et, lm, cc, cr⟩ := out
  cases ct <;> cases cl <;> cases et <;> cases lm <;> cases cc <;> cases cr <;>
    simp [streamEvents, headerValue]

theorem streamEvents_contentRange {Bytes τ : Type} (fmt : τ → String) (out : GetObjectOutput Bytes τ) :
    headerValue (streamEvents fmt out) "Content-Range" = out.contentRange := by
  obtain ⟨body, ct, cl, et, lm, cc, cr⟩ := out
  cases ct <;> cases cl <;> cases et <;> cases lm <;> cases cc <;> cases cr <;>
    simp [streamEvents, headerValue]

theorem streamEvents_status {Bytes τ : Type} (fmt : τ → String) (out : GetObjectOutput Bytes τ) :
    respStatus (streamEvents fmt out) = if out.contentRange.isSome then 206 else 200 := by
  obtain ⟨body, ct, cl, et, lm, cc, cr⟩ := out
  cases ct <;> cases cl <;> cases et <;> cases lm <;> cases cc <;> cases cr <;>
    simp [streamEvents, respStatus]

theorem streamEvents_no_jsonBody {Bytes τ : Type} (fmt : τ → String) (out : GetObjectOutput Bytes τ)
    (st : Nat) (fld v : String) : RespEvent.jsonBody st fld v ∉ streamEvents fmt out := by
  obtain ⟨body, ct, cl, et, lm, cc, cr⟩ := out
  cases ct <;> cases cl <;> cases et <;> cases lm <;> cases cc <;> cases cr <;>
    simp [streamEvents]

theorem scanPhase_not_400 {β ι μ : Type} (J : JsonCodec β) (B : Base64Codec β)
    (input : MissionsScanInput) (scan : MissionsScanInput → ScanOutcome ι)
    (unm : ι → Option μ) (msg : String) :
    (getMissionsScanPhase J B input scan unm).1 ≠ .jsonError 400 msg := by
  cases hscan : scan input with
  | failure => simp [getMissionsScanPhase, hscan]
  | success items lek =>
    cases hu : unm items with
    | none => simp [getMissionsScanPhase, hscan, hu]
    | some m =>
      by_cases hl : lek.length > 0 <;> simp [getMissionsScanPhase, hscan, hu, hl]

theorem scanPhase_snd {β ι μ : Type} (J : JsonCodec β) (B : Base64Codec β)
    (input : MissionsScanInput) (scan : MissionsScanInput → ScanOutcome ι)
    (unm : ι → Option μ) :
    (getMissionsScanPhase J B input scan unm).2 = some input := by
  cases hscan : scan input with
  | failure => simp [getMissionsScanPhase, hscan]
  | success items lek =>
    cases hu : unm items with
    | none => simp [getMissionsScanPhase, hscan, hu]
    | some m =>
      by_cases hl : lek.length > 0 <;> simp [getMissionsScanPhase, hscan, hu, hl]

/-- Claim C1: for every valid resume key (a map from attribute name to a
string-tagged or numeric-tagged scalar), decoding the pagination token
produced by encoding it yields the key again, where the token is the
base64 encoding of the serialized map of one-entry tagged unions and
both library codecs satisfy their documented round-trip laws. -/
theorem claim1_cursor_roundtrip {β : Type} (J : JsonCodec β) (B : Base64Codec β)
    (hJ : J.RoundTrips) (hB : B.RoundTrips) (k : AttrMap)
    (hnd : (k.map Prod.fst).Nodup) (hsc : ∀ e ∈ k, e.2.isScalar = true) :
    decodeNextToken J B (encodeNextToken J B k) = .ok k := by
  have hJ1 : ∀ m, J.unmarshal (J.marshal m) = some m := hJ
  have hB1 : ∀ b, B.decodeString (B.encodeToString b) = some b := hB
  simp [decodeNextToken, encodeNextToken, hB1, hJ1, reconstruct_serialize k hnd hsc]

/-- Witness for C1 at a concrete one-attribute resume key, using the
concrete round-tripping codec instances. -/
theorem claim1_cursor_roundtrip_witness :
    decodeNextToken charJson charBase64
      (encodeNextToken charJson charBase64 [("id", AttributeValue.S "m-7")])
      = .ok [("id", AttributeValue.S "m-7")] :=
  claim1_cursor_roundtrip charJson charBase64 charJson_roundTrips charBase64_roundTrips
    [("id", AttributeValue.S "m-7")] (by simp) (by decide)

/-- Claim C2, counterexample: a token that is valid base64 of a valid
decoded structure but carries the unrecognised scalar tag B is not
rejected with a 400; the handler proceeds to the scan with the tagged
attribute silently dropped, so the exclusive start key sent to the
store is empty. -/
theorem claim2_unknown_tag_counterexample :
    (getMissions charJson charBase64 "missions" ""
        (charBase64.encodeToString (charJson.marshal [("id", [("B", "x")])]))
        unitScanEmpty unitUnmarshalMissions)
      = (.page 0 none, some { tableName := "missions", limit := 10, exclusiveStartKey := some [] }) := by
  decide

/-- Claim C2, amended: with a well-formed count, the missions handler
answers 400 exactly when a nonempty nextToken fails base64 decoding or
fails to unmarshal once decoded; a decoded structure carrying an
unrecognised scalar tag is accepted, the unrecognised attribute being
silently dropped from the reconstructed cursor. -/
theorem claim2_token_badrequest_iff {β ι μ : Type} (J : JsonCodec β) (B : Base64Codec β)
    (tableName token : String) (scan : MissionsScanInput → ScanOutcome ι)
    (unmarshalMissions : ι → Option μ) :
    (∃ msg, (getMissions J B tableName "" token scan unmarshalMissions).1 = .jsonError 400 msg)
      ↔ token ≠ "" ∧ (B.decodeString token = none ∨
          ∃ bs, B.decodeString token = some bs ∧ J.unmarshal bs = none) := by
  by_cases ht : token = ""
  · subst ht
    simp only [getMissions, reduceIte, ne_eq, not_true_eq_false, false_and, if_false, iff_false]
    rintro ⟨msg, h⟩
    exact scanPhase_not_400 J B _ scan unmarshalMissions msg h
  · cases hb : B.decodeString token with
    | none =>
      simp only [getMissions, decodeNextToken, hb, reduceIte, ne_eq, not_true_eq_false,
        false_and, if_false, ht, if_neg]
      exact iff_of_true ⟨"Invalid pagination token", rfl⟩ ⟨not_false, Or.inl trivial⟩
    | some bs =>
      cases hj : J.unmarshal bs with
      | none =>
        simp only [getMissions, decodeNextToken, hb, hj, reduceIte, ne_eq, not_true_eq_false,
          false_and, if_false, ht, if_neg]
        exact iff_of_true ⟨"Invalid pagination token format", rfl⟩
          ⟨not_false, Or.inr ⟨bs, rfl, hj⟩⟩
      | some tempKey =>
        simp only [getMissions, decodeNextToken, hb, hj, reduceIte, ne_eq, not_true_eq_false,
          false_and, if_false, ht, if_neg]
        constructor
        · rintro ⟨msg, h⟩
          exact absurd h (scanPhase_not_400 J B _ scan unmarshalMissions msg)
        · rintro ⟨-, h | ⟨bs2, hbs2, hj2⟩⟩
          · exact Option.noConfusion h
          · injection hbs2 with he
            rw [← he] at hj2
            rw [hj2] at hj
            exact Option.noConfusion hj

/-- Claim C5: the count query parameter of the missions listing defaults
to 10 when absent and is clamped to at most 100, while a syntactically
invalid, out-of-int32-range or non-positive count yields 400 with no
store call. -/
theorem claim5_count_clamp {β ι μ : Type} (J : JsonCodec β) (B : Base64Codec β)
    (tableName countStr token : String) (scan : MissionsScanInput → ScanOutcome ι)
    (unmarshalMissions : ι → Option μ) :
    (countStr ≠ "" → ((goParseInt32Str countStr).2 = true ∨ (goParseInt32Str countStr).1 ≤ 0) →
      getMissions J B tableName countStr token scan unmarshalMissions
        = (.jsonError 400 "Invalid count parameter. Must be a positive integer.", none))
    ∧ (∀ si, (getMissions J B tableName countStr token scan unmarshalMissions).2 = some si →
        si.limit = if countStr = "" then 10 else min (goParseInt32Str countStr).1 100) := by
  constructor
  · intro hne hbad
    simp [getMissions, hne, hbad]
  · intro si hsi
    by_cases hbad : countStr ≠ "" ∧ ((goParseInt32Str countStr).2 = true ∨ (goParseInt32Str countStr).1 ≤ 0)
    · simp [getMissions, hbad] at hsi
    · rw [getMissions, if_neg hbad] at hsi
      by_cases ht : token = ""
      · rw [if_pos ht, scanPhase_snd] at hsi
        injection hsi with he
        rw [← he]
      · rw [if_neg ht] at hsi
        cases hd : decodeNextToken J B token with
        | error e =>
          cases e <;> simp [hd] at hsi
        | ok esk =>
          rw [hd, scanPhase_snd] at hsi
          injection hsi with he
          rw [← he]

/-- Witness for C5: a non-positive count is rejected with 400 and no
scan, and a count of 250 is clamped to the limit 100. -/
theorem claim5_count_clamp_witness :
    getMissions charJson charBase64 "missions" "0" "" unitScanEmpty unitUnmarshalMissions
      = (.jsonError 400 "Invalid count parameter. Must be a positive integer.", none)
    ∧ ({ tableName := "missions", limit := 100, exclusiveStartKey := none } : MissionsScanInput).limit
        = if ("250" : String) = "" then 10 else min (goParseInt32Str "250").1 100 :=
  ⟨(claim5_count_clamp charJson charBase64 "missions" "0" "" unitScanEmpty
      unitUnmarshalMissions).1 (by decide) (by decide),
   (claim5_count_clamp charJson charBase64 "missions" "250" "" unitScanEmpty
      unitUnmarshalMissions).2 _ (by decide)⟩

/-- Claim C8: every store fetch failure, whatever its error value, is
answered with 404 and the constant generic error object, a response
term that cannot depend on the error, the key or the bucket. -/
theorem claim8_fetch_error_404 {Bytes Img τ ε : Type} (L : ImagingLib Bytes Img)
    (formatHTTPTime : τ → String) (bucketName id wS hS cS rng : String)
    (getObject : GetObjectInput → Except ε (GetObjectOutput Bytes τ)) (e : ε)
    (hid : id ≠ "")
    (hget : getObject (imageObjectInput bucketName id wS hS cS rng) = .error e) :
    getSatImageByID L formatHTTPTime bucketName id wS hS cS rng getObject
      = ([.jsonBody 404 "error" "object not found"],
         some (imageObjectInput bucketName id wS hS cS rng)) := by
  simp [getSatImageByID, hid, hget]

/-- Witness for C8 with the always-failing store oracle. -/
theorem claim8_fetch_error_404_witness :
    getSatImageByID natImaging unitTimeFormat "sat-images" "img-1" "" "" "" "" errStore
      = ([.jsonBody 404 "error" "object not found"],
         some (imageObjectInput "sat-images" "img-1" "" "" "" "")) :=
  claim8_fetch_error_404 natImaging unitTimeFormat "sat-images" "img-1" "" "" "" "" errStore ()
    (by decide) rfl

/-- Claim C9: a request with contrast equal to 0 and no width or height
parameter is routed to the streaming path and produces a response
identical to the request with no parameters at all, for every store
oracle and imaging library. -/
theorem claim9_contrast_zero_noop {Bytes Img τ ε : Type} (L : ImagingLib Bytes Img)
    (formatHTTPTime : τ → String) (bucketName id rng : String)
    (getObject : GetObjectInput → Except ε (GetObjectOutput Bytes τ)) :
    getSatImageByID L formatHTTPTime bucketName id "" "" "0" rng getObject
      = getSatImageByID L formatHTTPTime bucketName id "" "" "" rng getObject
    ∧ needsProcessing (goAtoi "").1 (goAtoi "").1 (goParseFloat64 "0").1 = false := by
  constructor
  · have h : (goParseFloat64 "0").1 = (goParseFloat64 "").1 := by decide
    unfold getSatImageByID imageObjectInput parsedTransformParams
    rw [h]
  · decide

/-- Claim C4, counterexample: for the request width=-1 with no height
and no contrast, needsProcessing is false although the parsed width is
not zero, so the claimed equivalence fails as stated. -/
theorem claim4_negative_width_counterexample :
    ¬ (needsProcessing (goAtoi "-1").1 (goAtoi "").1 (goParseFloat64 "").1 = false
        ↔ ((goAtoi "-1").1 = 0 ∧ (goAtoi "").1 = 0 ∧ (goParseFloat64 "").1.isZero = true)) := by
  decide

/-- Claim C4, amended: needsProcessing is false exactly when the parsed
width and height are non-positive and the parsed contrast is zero, and
the store call of every image request forwards the inbound Range header
exactly when needsProcessing is false and the header is nonempty. -/
theorem claim4_needs_processing_amended {Bytes Img τ ε : Type} (L : ImagingLib Bytes Img)
    (formatHTTPTime : τ → String) (bucketName id wS hS cS rng : String)
    (getObject : GetObjectInput → Except ε (GetObjectOutput Bytes τ))
    (hid : id ≠ "") :
    (needsProcessing (goAtoi wS).1 (goAtoi hS).1 (goParseFloat64 cS).1 = false
      ↔ ((goAtoi wS).1 ≤ 0 ∧ (goAtoi hS).1 ≤ 0 ∧ (goParseFloat64 cS).1.isZero = true))
    ∧ ∃ inp, (getSatImageByID L formatHTTPTime bucketName id wS hS cS rng getObject).2 = some inp
        ∧ inp.range = (if needsProcessing (goAtoi wS).1 (goAtoi hS).1 (goParseFloat64 cS).1 = false
              ∧ rng ≠ "" then some rng else none) := by
  constructor
  · simp only [needsProcessing, Bool.or_eq_false_iff, decide_eq_false_iff_not, not_lt,
      Bool.not_eq_false, Bool.not_eq_true, Bool.not_eq_false', and_assoc]
  · refine ⟨imageObjectInput bucketName id wS hS cS rng, ?_, ?_⟩
    · rw [getSatImageByID, if_neg hid]
      cases hget : getObject (imageObjectInput bucketName id wS hS cS rng) with
      | error e => simp [hget]
      | ok out =>
        simp only [hget]
        by_cases hnp : needsProcessing (goAtoi wS).1 (goAtoi hS).1 (goParseFloat64 cS).1 = true <;>
          simp [parsedTransformParams, hnp]
    · rw [imageObjectInput]
      simp only [parsedTransformParams]
      by_cases hnp : needsProcessing (goAtoi wS).1 (goAtoi hS).1 (goParseFloat64 cS).1 = true
      · simp [hnp]
      · rw [Bool.not_eq_true] at hnp
        by_cases hr : rng = "" <;> simp [hnp, hr]

/-- Witness for the amended C4 at a concrete request with width=-1 and a
Range header present. -/
theorem claim4_needs_processing_amended_witness :
    (needsProcessing (goAtoi "-1").1 (goAtoi "").1 (goParseFloat64 "").1 = false
      ↔ ((goAtoi "-1").1 ≤ 0 ∧ (goAtoi "").1 ≤ 0 ∧ (goParseFloat64 "").1.isZero = true))
    ∧ ∃ inp, (getSatImageByID natImaging unitTimeFormat "sat-images" "img-1" "-1" "" ""
          "bytes=0-99" errStore).2 = some inp
        ∧ inp.range = (if needsProcessing (goAtoi "-1").1 (goAtoi "").1 (goParseFloat64 "").1 = false
              ∧ ("bytes=0-99" : String) ≠ "" then some "bytes=0-99" else none) :=
  claim4_needs_processing_amended natImaging unitTimeFormat "sat-images" "img-1" "-1" "" ""
    "bytes=0-99" errStore (by decide)

/-- Claim C10, counterexample: a negative contrast is not treated as
unset; with contrast=-10 the Range header is dropped and the request
takes the transform path, while the same request without the contrast
parameter forwards the Range header on the streaming path. -/
theorem claim10_negative_contrast_counterexample :
    (getSatImageByID natImaging unitTimeFormat "sat-images" "img-1" "" "" "-10" "bytes=0-99"
        errStore).2
      = some { bucket := "sat-images", key := "images/img-1.jpg", range := none }
    ∧ (getSatImageByID natImaging unitTimeFormat "sat-images" "img-1" "" "" "" "bytes=0-99"
        errStore).2
      = some { bucket := "sat-images", key := "images/img-1.jpg", range := some "bytes=0-99" }
    ∧ needsProcessing (goAtoi "").1 (goAtoi "").1 (goParseFloat64 "-10").1 = true := by
  refine ⟨by decide, by decide, by decide⟩

/-- Claim C10, amended: the image handler never answers 400 for any
combination of width, height and contrast parameters; parameters whose
parse fails with the zero value (in particular all syntactically
malformed ones) behave exactly as absent parameters; and non-positive
width and height with a zero contrast leave needsProcessing false, so
such requests stream.  A negative contrast, by contrast, is a real
transform request, and an out-of-range numeric parameter is clamped to
the extreme value rather than treated as unset. -/
theorem claim10_param_parsing_amended {Bytes Img τ ε : Type} (L : ImagingLib Bytes Img)
    (formatHTTPTime : τ → String) (bucketName id wS hS cS rng : String)
    (getObject : GetObjectInput → Except ε (GetObjectOutput Bytes τ)) :
    (∀ fld v, id ≠ "" →
      RespEvent.jsonBody 400 fld v ∉ (getSatImageByID L formatHTTPTime bucketName id wS hS cS rng
        getObject).1)
    ∧ (goAtoi wS = (0, true) → goAtoi hS = (0, true) → goParseFloat64 cS = (.finite 0, true) →
        getSatImageByID L formatHTTPTime bucketName id wS hS cS rng getObject
          = getSatImageByID L formatHTTPTime bucketName id "" "" "" rng getObject)
    ∧ ((goAtoi wS).1 ≤ 0 → (goAtoi hS).1 ≤ 0 → (goParseFloat64 cS).1.isZero = true →
        needsProcessing (goAtoi wS).1 (goAtoi hS).1 (goParseFloat64 cS).1 = false) := by
  refine ⟨?_, ?_, ?_⟩
  · intro fld v hid
    rw [getSatImageByID, if_neg hid]
    cases hget : getObject (imageObjectInput bucketName id wS hS cS rng) with
    | error e => simp [hget]
    | ok out =>
      simp only [hget]
      by_cases hnp : needsProcessing (goAtoi wS).1 (goAtoi hS).1 (goParseFloat64 cS).1 = true
      · simp only [parsedTransformParams, hnp, if_true]
        cases hdec : L.decode out.body <;> simp [transformEvents, hdec]
      · rw [Bool.not_eq_true] at hnp
        simp only [parsedTransformParams, hnp, Bool.false_eq_true, if_false]
        exact streamEvents_no_jsonBody formatHTTPTime out 400 fld v
  · intro h1 h2 h3
    unfold getSatImageByID imageObjectInput parsedTransformParams
    rw [h1, h2, h3]
    exact rfl
  · intro h1 h2 h3
    simp only [needsProcessing, h3, Bool.not_true, Bool.or_false]
    rw [decide_eq_false (by omega), decide_eq_false (by omega)]
    rfl

/-- Witness for the amended C10 at concrete malformed parameters. -/
theorem claim10_param_parsing_amended_witness :
    (RespEvent.jsonBody 400 "error" "missing id"
        ∉ (getSatImageByID natImaging unitTimeFormat "sat-images" "img-1" "x" "y" "z" ""
            errStore).1)
    ∧ getSatImageByID natImaging unitTimeFormat "sat-images" "img-1" "x" "y" "z" "" errStore
        = getSatImageByID natImaging unitTimeFormat "sat-images" "img-1" "" "" "" "" errStore
    ∧ needsProcessing (goAtoi "x").1 (goAtoi "y").1 (goParseFloat64 "z").1 = false :=
  ⟨(claim10_param_parsing_amended natImaging unitTimeFormat "sat-images" "img-1" "x" "y" "z" ""
      errStore).1 "error" "missing id" (by decide),
   (claim10_param_parsing_amended natImaging unitTimeFormat "sat-images" "img-1" "x" "y" "z" ""
      errStore).2.1 (by decide) (by decide) (by decide),
   (claim10_param_parsing_amended natImaging unitTimeFormat "sat-images" "img-1" "x" "y" "z" ""
      errStore).2.2 (by decide) (by decide) (by decide)⟩

/-- Claim C3, counterexample: on a successful transform request the
response carries no Content-Length header at all, so the claimed
Content-Length equal to the encoded buffer size is absent; the status
is still 200. -/
theorem claim3_no_content_length_counterexample :
    headerValue ((getSatImageByID natImaging unitTimeFormat "sat-images" "img-1" "50" "" "" ""
        okStore).1) "Content-Length" = none
    ∧ respStatus ((getSatImageByID natImaging unitTimeFormat "sat-images" "img-1" "50" "" "" ""
        okStore).1) = 200 := by
  refine ⟨by decide, by decide⟩

/-- Claim C3, amended: on the transform path, after a successful fetch,
decode and encode, the handler responds 200 with Content-Type image/jpeg
and Cache-Control private, max-age=3600, writing both headers before the
encoder output; no Content-Length header is set, because the encoder
streams straight into the response writer instead of being buffered. -/
theorem claim3_transform_response_amended {Bytes Img τ ε : Type} (L : ImagingLib Bytes Img)
    (formatHTTPTime : τ → String) (bucketName id wS hS cS rng : String)
    (getObject : GetObjectInput → Except ε (GetObjectOutput Bytes τ))
    (out : GetObjectOutput Bytes τ) (img : Img) (encoded : Bytes)
    (hid : id ≠ "")
    (hnp : needsProcessing (goAtoi wS).1 (goAtoi hS).1 (goParseFloat64 cS).1 = true)
    (hget : getObject (imageObjectInput bucketName id wS hS cS rng) = .ok out)
    (hdec : L.decode out.body = some img)
    (henc : L.encodeJPEG95
        (transformPipeline L (goAtoi wS).1 (goAtoi hS).1 (goParseFloat64 cS).1 img)
      = .success encoded) :
    (getSatImageByID L formatHTTPTime bucketName id wS hS cS rng getObject).1
      = [RespEvent.setHeader "Content-Type" "image/jpeg",
         RespEvent.setHeader "Cache-Control" "private, max-age=3600",
         RespEvent.writeBody encoded]
    ∧ headerValue (getSatImageByID L formatHTTPTime bucketName id wS hS cS rng getObject).1
        "Content-Length" = none
    ∧ respStatus (getSatImageByID L formatHTTPTime bucketName id wS hS cS rng getObject).1
        = 200 := by
  have htr : (getSatImageByID L formatHTTPTime bucketName id wS hS cS rng getObject).1
      = [RespEvent.setHeader "Content-Type" "image/jpeg",
         RespEvent.setHeader "Cache-Control" "private, max-age=3600",
         RespEvent.writeBody encoded] := by
    rw [getSatImageByID, if_neg hid]
    simp only [hget, parsedTransformParams, hnp, if_true, transformEvents, hdec, henc]
  refine ⟨htr, ?_, ?_⟩ <;> rw [htr] <;> rfl

/-- Witness for the amended C3 at a concrete width-only transform
request with the succeeding concrete imaging library. -/
theorem claim3_transform_response_amended_witness :
    (getSatImageByID natImaging unitTimeFormat "sat-images" "img-1" "50" "" "" "" okStore).1
      = [RespEvent.setHeader "Content-Type" "image/jpeg",
         RespEvent.setHeader "Cache-Control" "private, max-age=3600",
         RespEvent.writeBody 112]
    ∧ headerValue ((getSatImageByID natImaging unitTimeFormat "sat-images" "img-1" "50" "" "" ""
        okStore).1) "Content-Length" = none
    ∧ respStatus ((getSatImageByID natImaging unitTimeFormat "sat-images" "img-1" "50" "" "" ""
        okStore).1) = 200 :=
  claim3_transform_response_amended natImaging unitTimeFormat "sat-images" "img-1" "50" "" "" ""
    okStore
    { body := 5, contentType := none, contentLength := none, eTag := none,
      lastModified := none, cacheControl := none, contentRange := none }
    6 112 (by decide) (by decide) rfl rfl (by decide)

/-- Claim C6, counterexample: when the JPEG encoder fails, the handler
does not answer 500 with the failed-to-process error object; the
response is already committed as a 200 with the transform headers, and
the failure is only logged. -/
theorem claim6_encode_failure_counterexample :
    natImagingEncodeFails.encodeJPEG95 56 = .failure 0
    ∧ respStatus ((getSatImageByID natImagingEncodeFails unitTimeFormat "sat-images" "img-1"
        "50" "" "" "" okStore).1) = 200
    ∧ (getSatImageByID natImagingEncodeFails unitTimeFormat "sat-images" "img-1"
        "50" "" "" "" okStore).1
      = [RespEvent.setHeader "Content-Type" "image/jpeg",
         RespEvent.setHeader "Cache-Control" "private, max-age=3600",
         RespEvent.writeBody 0] := by
  refine ⟨rfl, by decide, by decide⟩

/-- Claim C6, amended: on the transform path a decode failure yields 500
with the failed-to-process error object, but an encode failure does not:
the response stays a 200 carrying the transform headers and whatever
bytes the encoder wrote before failing. -/
theorem claim6_process_errors_amended {Bytes Img τ ε : Type} (L : ImagingLib Bytes Img)
    (formatHTTPTime : τ → String) (bucketName id wS hS cS rng : String)
    (getObject : GetObjectInput → Except ε (GetObjectOutput Bytes τ))
    (out : GetObjectOutput Bytes τ)
    (hid : id ≠ "")
    (hnp : needsProcessing (goAtoi wS).1 (goAtoi hS).1 (goParseFloat64 cS).1 = true)
    (hget : getObject (imageObjectInput bucketName id wS hS cS rng) = .ok out) :
    (L.decode out.body = none →
      (getSatImageByID L formatHTTPTime bucketName id wS hS cS rng getObject).1
        = [RespEvent.jsonBody 500 "error" "failed to process image"])
    ∧ (∀ img written, L.decode out.body = some img →
        L.encodeJPEG95 (transformPipeline L (goAtoi wS).1 (goAtoi hS).1 (goParseFloat64 cS).1 img)
          = .failure written →
        (getSatImageByID L formatHTTPTime bucketName id wS hS cS rng getObject).1
          = [RespEvent.setHeader "Content-Type" "image/jpeg",
             RespEvent.setHeader "Cache-Control" "private, max-age=3600",
             RespEvent.writeBody written]
        ∧ respStatus (getSatImageByID L formatHTTPTime bucketName id wS hS cS rng getObject).1
            = 200) := by
  constructor
  · intro hdec
    rw [getSatImageByID, if_neg hid]
    simp only [hget, parsedTransformParams, hnp, if_true, transformEvents, hdec]
  · intro img written hdec henc
    have htr : (getSatImageByID L formatHTTPTime bucketName id wS hS cS rng getObject).1
        = [RespEvent.setHeader "Content-Type" "image/jpeg",
           RespEvent.setHeader "Cache-Control" "private, max-age=3600",
           RespEvent.writeBody written] := by
      rw [getSatImageByID, if_neg hid]
      simp only [hget, parsedTransformParams, hnp, if_true, transformEvents, hdec, henc]
    exact ⟨htr, by rw [htr]; rfl⟩

/-- Witness for the amended C6: with the failing concrete encoder the
transform response is the committed 200 carrying the bytes written
before the failure. -/
theorem claim6_process_errors_amended_witness :
    (getSatImageByID natImagingEncodeFails unitTimeFormat "sat-images" "img-1" "50" "" "" ""
        okStore).1
      = [RespEvent.setHeader "Content-Type" "image/jpeg",
         RespEvent.setHeader "Cache-Control" "private, max-age=3600",
         RespEvent.writeBody 0]
    ∧ respStatus ((getSatImageByID natImagingEncodeFails unitTimeFormat "sat-images" "img-1"
        "50" "" "" "" okStore).1) = 200 :=
  (claim6_process_errors_amended natImagingEncodeFails unitTimeFormat "sat-images" "img-1"
    "50" "" "" "" okStore
    { body := 5, contentType := none, contentLength := none, eTag := none,
      lastModified := none, cacheControl := none, contentRange := none }
    (by decide) (by decide) rfl).2 6 0 rfl rfl

/-- Claim C7: on the streaming path a successful fetch mirrors
content-type, content-length, etag and last-modified exactly when the
store returned them, takes the store cache-control or the private
max-age=60 default, always sets Accept-Ranges bytes, and commits 206
with a Content-Range exactly when the store returned a content range,
else 200. -/
theorem claim7_streaming_headers {Bytes Img τ ε : Type} (L : ImagingLib Bytes Img)
    (formatHTTPTime : τ → String) (bucketName id wS hS cS rng : String)
    (getObject : GetObjectInput → Except ε (GetObjectOutput Bytes τ))
    (out : GetObjectOutput Bytes τ)
    (hid : id ≠ "")
    (hnp : needsProcessing (goAtoi wS).1 (goAtoi hS).1 (goParseFloat64 cS).1 = false)
    (hget : getObject (imageObjectInput bucketName id wS hS cS rng) = .ok out) :
    headerValue ((getSatImageByID L formatHTTPTime bucketName id wS hS cS rng getObject).1)
        "Content-Type" = out.contentType
    ∧ headerValue ((getSatImageByID L formatHTTPTime bucketName id wS hS cS rng getObject).1)
        "Content-Length" = out.contentLength.map toString
    ∧ headerValue ((getSatImageByID L formatHTTPTime bucketName id wS hS cS rng getObject).1)
        "ETag" = out.eTag
    ∧ headerValue ((getSatImageByID L formatHTTPTime bucketName id wS hS cS rng getObject).1)
        "Last-Modified" = out.lastModified.map formatHTTPTime
    ∧ headerValue ((getSatImageByID L formatHTTPTime bucketName id wS hS cS rng getObject).1)
        "Cache-Control" = some (out.cacheControl.getD "private, max-age=60")
    ∧ headerValue ((getSatImageByID L formatHTTPTime bucketName id wS hS cS rng getObject).1)
        "Accept-Ranges" = some "bytes"
    ∧ headerValue ((getSatImageByID L formatHTTPTime bucketName id wS hS cS rng getObject).1)
        "Content-Range" = out.contentRange
    ∧ respStatus ((getSatImageByID L formatHTTPTime bucketName id wS hS cS rng getObject).1)
        = (if out.contentRange.isSome then 206 else 200) := by
  have htr : (getSatImageByID L formatHTTPTime bucketName id wS hS cS rng getObject).1
      = streamEvents formatHTTPTime out := by
    rw [getSatImageByID, if_neg hid]
    simp only [hget, parsedTransformParams, hnp, Bool.false_eq_true, if_false]
  rw [htr]
  exact ⟨streamEvents_contentType formatHTTPTime out,
         streamEvents_contentLength formatHTTPTime out,
         streamEvents_eTag formatHTTPTime out,
         streamEvents_lastModified formatHTTPTime out,
         streamEvents_cacheControl formatHTTPTime out,
         streamEvents_acceptRanges formatHTTPTime out,
         streamEvents_contentRange formatHTTPTime out,
         streamEvents_status formatHTTPTime out⟩

/-- Witness for C7 at a concrete ranged streaming request against the
metadata-carrying store oracle. -/
theorem claim7_streaming_headers_witness :
    headerValue ((getSatImageByID natImaging unitTimeFormat "sat-images" "img-1" "" "" ""
        "bytes=0-99" fullStore).1) "Content-Type" = some "image/jpeg"
    ∧ headerValue ((getSatImageByID natImaging unitTimeFormat "sat-images" "img-1" "" "" ""
        "bytes=0-99" fullStore).1) "Content-Length" = some "100"
    ∧ headerValue ((getSatImageByID natImaging unitTimeFormat "sat-images" "img-1" "" "" ""
        "bytes=0-99" fullStore).1) "Cache-Control" = some "private, max-age=60"
    ∧ respStatus ((getSatImageByID natImaging unitTimeFormat "sat-images" "img-1" "" "" ""
        "bytes=0-99" fullStore).1) = 206 := by
  have h := claim7_streaming_headers natImaging unitTimeFormat "sat-images" "img-1" "" "" ""
    "bytes=0-99" fullStore
    { body := 9, contentType := some "image/jpeg", contentLength := some 100,
      eTag := some "abc123", lastModified := some (), cacheControl := none,
      contentRange := some "bytes 0-99/200" }
    (by decide) (by decide) rfl
  exact ⟨h.1, h.2.1, h.2.2.2.2.1, h.2.2.2.2.2.2.2⟩
